import Mathlib

/-!
Shallow embedding of the SamBot content-extractor service
(`services/content_extractor/`), with theorems checking the
natural-language specification against the code.

Python numbers (ints and floats) are modelled exactly: ints as `ℤ`/`ℕ`,
floats as `ℚ` (float rounding is idealised away).  Wall-clock times are
`ℚ`.  Fallible code is modelled with `Option`/`Except`.

Python float arithmetic is modelled by the `py*` operations below, which
are extensionally the field operations on `ℚ` (see the `py*_eq` lemmas)
but are written with `mkRat` so that the kernel can evaluate them on
concrete inputs.
-/

namespace SamBot

/-! ## Exact-rational model of Python float arithmetic -/

def pyAdd (a b : ℚ) : ℚ := mkRat (a.num * b.den + b.num * a.den) (a.den * b.den)

def pySub (a b : ℚ) : ℚ := mkRat (a.num * b.den - b.num * a.den) (a.den * b.den)

def pyMul (a b : ℚ) : ℚ := mkRat (a.num * b.num) (a.den * b.den)

def pyDiv (a b : ℚ) : ℚ :=
  if 0 ≤ b.num then mkRat (a.num * b.den) (a.den * b.num.toNat)
  else mkRat (-(a.num * b.den)) (a.den * (-b.num).toNat)

/-- Python `int(x)` on a float: truncation toward zero. -/
def pyTrunc (q : ℚ) : ℤ := q.num.tdiv (q.den : ℤ)

theorem mkRat_eq_div' (n : ℤ) (d : ℕ) : mkRat n d = (n : ℚ) / (d : ℚ) := by
  rw [Rat.mkRat_eq_divInt, Rat.divInt_eq_div]
  norm_cast

theorem pyAdd_eq (a b : ℚ) : pyAdd a b = a + b := by
  have ha : ((a.den : ℚ)) ≠ 0 := Nat.cast_ne_zero.mpr a.den_nz
  have hb : ((b.den : ℚ)) ≠ 0 := Nat.cast_ne_zero.mpr b.den_nz
  rw [pyAdd, mkRat_eq_div']
  push_cast
  conv_rhs => rw [← Rat.num_div_den a, ← Rat.num_div_den b, div_add_div _ _ ha hb]
  ring_nf

theorem pySub_eq (a b : ℚ) : pySub a b = a - b := by
  have ha : ((a.den : ℚ)) ≠ 0 := Nat.cast_ne_zero.mpr a.den_nz
  have hb : ((b.den : ℚ)) ≠ 0 := Nat.cast_ne_zero.mpr b.den_nz
  rw [pySub, mkRat_eq_div']
  push_cast
  conv_rhs => rw [← Rat.num_div_den a, ← Rat.num_div_den b, div_sub_div _ _ ha hb]
  ring_nf

theorem pyMul_eq (a b : ℚ) : pyMul a b = a * b := by
  have ha : ((a.den : ℚ)) ≠ 0 := Nat.cast_ne_zero.mpr a.den_nz
  have hb : ((b.den : ℚ)) ≠ 0 := Nat.cast_ne_zero.mpr b.den_nz
  rw [pyMul, mkRat_eq_div']
  push_cast
  conv_rhs => rw [← Rat.num_div_den a, ← Rat.num_div_den b, div_mul_div_comm]

theorem pyDiv_eq (a b : ℚ) : pyDiv a b = a / b := by
  by_cases hb0 : b = 0
  · subst hb0
    simp [pyDiv, mkRat_eq_div']
  · have ha : ((a.den : ℚ)) ≠ 0 := Nat.cast_ne_zero.mpr a.den_nz
    have hbn : b.num ≠ 0 := Rat.num_ne_zero.mpr hb0
    have hbnQ : (b.num : ℚ) ≠ 0 := Int.cast_ne_zero.mpr hbn
    have hbd : ((b.den : ℚ)) ≠ 0 := Nat.cast_ne_zero.mpr b.den_nz
    have key : a / b = ((a.num : ℚ) * (b.den : ℚ)) / ((a.den : ℚ) * (b.num : ℚ)) := by
      conv_lhs => rw [← Rat.num_div_den a, ← Rat.num_div_den b]
      rw [div_eq_div_iff (by exact div_ne_zero hbnQ hbd) (mul_ne_zero ha hbnQ)]
      field_simp
      ring
    rw [pyDiv]
    by_cases h : 0 ≤ b.num
    · have ht : ((b.num.toNat : ℕ) : ℚ) = (b.num : ℚ) := by
        exact_mod_cast Int.toNat_of_nonneg h
      rw [if_pos h, mkRat_eq_div', key]
      push_cast
      rw [ht]
    · have h' : (0:ℤ) ≤ -b.num := by omega
      have ht : (((-b.num).toNat : ℕ) : ℚ) = -(b.num : ℚ) := by
        have h2 := Int.toNat_of_nonneg h'
        exact_mod_cast h2
      rw [if_neg h, mkRat_eq_div', key]
      push_cast
      rw [ht, div_eq_div_iff (mul_ne_zero ha (neg_ne_zero.mpr hbnQ)) (mul_ne_zero ha hbnQ)]
      ring

/-! ## `utils/rate_limiter.py` — `RateLimiter`

`wait_if_needed` reads the clock once on entry (`t1`); when a previous
call is recorded the timestamp it stores is a second, later clock
reading (`t2`).  `time.sleep(w)` guarantees `t2 ≥ t1 + w`; that is
supplied as a hypothesis where needed.
-/

structure RateLimiter where
  requestsPerMinute : ℕ
  lastRequestTime : Option ℚ

def RateLimiter.minInterval (rl : RateLimiter) : ℚ :=
  60 / (rl.requestsPerMinute : ℚ)

/-- `wait_if_needed`: returns (seconds waited, updated limiter). -/
def RateLimiter.waitIfNeeded (rl : RateLimiter) (t1 t2 : ℚ) : ℚ × RateLimiter :=
  match rl.lastRequestTime with
  | none => (0, { rl with lastRequestTime := some t1 })
  | some last =>
    let elapsed := t1 - last
    if elapsed < rl.minInterval then
      (rl.minInterval - elapsed, { rl with lastRequestTime := some t2 })
    else
      (0, { rl with lastRequestTime := some t2 })

/-- `reset`. -/
def RateLimiter.reset (rl : RateLimiter) : RateLimiter :=
  { rl with lastRequestTime := none }

/-! ## Python dictionaries for segments and chapters

Segment and chapter dictionaries are read via `.get(key, default)`, so a
key may be absent; each possible key is an `Option` field and `.get` is
`Option.getD`. -/

def intToRat (n : ℤ) : ℚ := mkRat n 1

def natToRat (n : ℕ) : ℚ := mkRat n 1

theorem intToRat_eq (n : ℤ) : intToRat n = (n : ℚ) := by
  simp [intToRat]

theorem natToRat_eq (n : ℕ) : natToRat n = (n : ℚ) := by
  simp [natToRat]

/-- A transcript-segment dictionary (keys `text`, `start`, `duration`). -/
structure PySeg where
  text : Option String := none
  start : Option ℚ := none
  duration : Option ℚ := none
deriving DecidableEq

instance : Inhabited PySeg := ⟨{}⟩

/-- A chapter dictionary.  `extract_video_chapters` emits keys `time`,
`title`, `start_seconds`, `end_seconds`; the chunkers read keys
`start_time`, `end_time`, `title`. -/
structure PyChapter where
  time : Option String := none
  title : Option String := none
  start_seconds : Option ℚ := none
  end_seconds : Option ℚ := none
  start_time : Option ℚ := none
  end_time : Option ℚ := none
deriving DecidableEq

instance : Inhabited PyChapter := ⟨{}⟩

/-! ## `chunking/chapter_based.py` — `ChapterBasedChunker` -/

/-- `Chunk` dataclass of `chapter_based.py`. -/
structure CBChunk where
  chunk_index : ℕ
  chunk_text : String
  start_timestamp : ℚ
  end_timestamp : ℚ
  chunk_length : ℕ
  chunk_tokens : Option ℕ := none
  chapter_title : Option String := none
deriving DecidableEq

/-- `ChapterBasedChunker.should_use_chapters` (`max_chunk_size` plays no
role in it).  `0.5` is written `mkRat 1 2`. -/
def ChapterBasedChunker.shouldUseChapters (chapters : List PyChapter) (video_duration : ℤ) :
    Bool :=
  if chapters.length < 2 then false
  else if video_duration < 600 then false
  else
    let lastChapterEnd : ℚ := (chapters.getLastD default).end_time.getD (intToRat video_duration)
    let coverage : ℚ :=
      if 0 < video_duration then pyDiv lastChapterEnd (intToRat video_duration) else 0
    if coverage < mkRat 1 2 then false else true

/-- The loop body of `ChapterBasedChunker.chunk_by_chapters`
(`for idx, chapter in enumerate(chapters)`), carrying the enumeration
index. -/
def chunkByChaptersGo (segs : List PySeg) (vd : ℚ) : ℕ → List PyChapter → List CBChunk
  | _, [] => []
  | idx, ch :: rest =>
    let startTime := ch.start_time.getD 0
    let endTime := ch.end_time.getD vd
    let chapterSegs := segs.filter fun s =>
      decide (startTime ≤ s.start.getD 0) && decide (s.start.getD 0 < endTime)
    if chapterSegs = [] then chunkByChaptersGo segs vd (idx + 1) rest
    else
      let chapterText := String.intercalate " " (chapterSegs.map fun s => s.text.getD "")
      { chunk_index := idx
        chunk_text := chapterText
        start_timestamp := startTime
        end_timestamp := endTime
        chunk_length := chapterText.length
        chapter_title := some (ch.title.getD ("Chapter " ++ toString (idx + 1))) }
        :: chunkByChaptersGo segs vd (idx + 1) rest

/-- `ChapterBasedChunker.chunk_by_chapters` (the `content` argument is
unused by the source as well). -/
def ChapterBasedChunker.chunkByChapters (content : String) (segs : List PySeg)
    (chapters : List PyChapter) (video_duration : ℤ) : List CBChunk :=
  chunkByChaptersGo segs (intToRat video_duration) 0 chapters

/-! ## `chunking/fixed_size.py` — `FixedSizeChunker` -/

/-- `Chunk` dataclass of `fixed_size.py`. -/
structure FSChunk where
  chunk_index : ℕ
  chunk_text : String
  start_timestamp : Option ℤ
  end_timestamp : Option ℤ
  chunk_length : ℕ
  chunk_tokens : Option ℕ := none
deriving DecidableEq

/-- `FixedSizeChunker` configuration.  `count_units` delegates to the
external tiktoken tokenizer when `use_tokens` (else `len(text)`); the
resolved counter is carried as a function. -/
structure FixedSizeChunker where
  chunk_size : ℕ := 500
  overlap : ℕ := 50
  countUnits : String → ℕ
  useTokens : Bool

def isPyWs (c : Char) : Bool :=
  c = ' ' || c = '\t' || c = '\n' || c = '\r' || c = '\x0b' || c = '\x0c'

def isSentEnd (c : Char) : Bool :=
  c = '.' || c = '!' || c = '?'

def lastIsSentEnd (cur : List Char) : Bool :=
  match cur with
  | [] => false
  | p :: _ => isSentEnd p

/-- `re.split(r'(?<=[.!?])\s+', text)`: cut at each whitespace run whose
preceding character is `.`, `!` or `?`.  `cur` holds the current piece
reversed; `skipping` is true while consuming the whitespace run just cut. -/
def splitSentGo : Bool → List Char → List Char → List (List Char)
  | _, cur, [] => [cur.reverse]
  | skipping, cur, c :: rest =>
    if skipping && isPyWs c then
      splitSentGo true cur rest
    else if isPyWs c && lastIsSentEnd cur then
      cur.reverse :: splitSentGo true [] rest
    else
      splitSentGo false (c :: cur) rest

def splitSentences (text : String) : List String :=
  (splitSentGo false [] text.toList).map List.asString

/-- The overlap scan of `split_text`: walk the closed chunk's sentences
last-to-first, prepending while the accumulated unit count stays within
`overlap`, stopping at the first violation. -/
def overlapScan (cu : String → ℕ) (overlap : ℕ) :
    List String → List String → ℕ → List String × ℕ
  | [], acc, accSize => (acc, accSize)
  | s :: rest, acc, accSize =>
    if accSize + cu s ≤ overlap then overlapScan cu overlap rest (s :: acc) (accSize + cu s)
    else (acc, accSize)

/-- The sentence-accumulation loop of `split_text`. -/
def splitTextLoop (cu : String → ℕ) (chunkSize overlap : ℕ) :
    List String → List String → ℕ → List String
  | [], curChunk, _ =>
    if curChunk = [] then [] else [String.intercalate " " curChunk]
  | s :: rest, curChunk, curSize =>
    let ssize := cu s
    if chunkSize < curSize + ssize ∧ curChunk ≠ [] then
      let closed := String.intercalate " " curChunk
      let ov := overlapScan cu overlap curChunk.reverse [] 0
      closed :: splitTextLoop cu chunkSize overlap rest (ov.1 ++ [s]) (ov.2 + ssize)
    else
      splitTextLoop cu chunkSize overlap rest (curChunk ++ [s]) (curSize + ssize)

/-- `FixedSizeChunker.split_text`. -/
def FixedSizeChunker.splitText (cfg : FixedSizeChunker) (text : String) : List String :=
  splitTextLoop cfg.countUnits cfg.chunk_size cfg.overlap (splitSentences text) [] 0

/-- Python `str.split()`: whitespace-delimited words, no empties. -/
def pyWordsGo : List Char → List Char → List String
  | cur, [] => if cur = [] then [] else [cur.reverse.asString]
  | cur, c :: rest =>
    if isPyWs c then
      if cur = [] then pyWordsGo [] rest else cur.reverse.asString :: pyWordsGo [] rest
    else pyWordsGo (c :: cur) rest

def pyWords (s : String) : List String := pyWordsGo [] s.toList

def pyLower (s : String) : String := (s.toList.map Char.toLower).asString

/-- `chunk_words & seg_words` nonemptiness (set intersection is only
tested for emptiness, so lists of words suffice). -/
def hasCommonWord (a b : List String) : Bool := a.any fun w => b.contains w

/-- Inner lookahead loop of `estimate_timestamps`, over the frozen index
range, threading `(best_end, segment_idx)`. -/
def tsInner (segs : List PySeg) (chunkWords : List String) :
    List ℕ → ℚ → ℕ → ℚ × ℕ
  | [], bestEnd, segIdx => (bestEnd, segIdx)
  | i :: rest, bestEnd, segIdx =>
    let seg := segs.getD i default
    let segWords := pyWords (pyLower (seg.text.getD ""))
    if hasCommonWord chunkWords segWords then
      let bestEnd' := pyAdd (seg.start.getD 0) (seg.duration.getD 0)
      let segIdx' := if segIdx < i then i else segIdx
      tsInner segs chunkWords rest bestEnd' segIdx'
    else
      tsInner segs chunkWords rest bestEnd segIdx

/-- Per-chunk loop of the segment-matching branch of
`estimate_timestamps`, threading the monotone cursor `segment_idx`. -/
def tsLoop (segs : List PySeg) (total : ℕ) : List String → ℕ → List (ℤ × ℤ)
  | [], _ => []
  | chunkText :: rest, segIdx =>
    let chunkWords := pyWords (pyLower chunkText)
    let bestStart := (segs.getD segIdx default).start.getD 0
    let idxs := List.range' segIdx (min (segIdx + 50) total - segIdx)
    let r := tsInner segs chunkWords idxs bestStart segIdx
    (pyTrunc bestStart, pyTrunc r.1) :: tsLoop segs total rest r.2

/-- `FixedSizeChunker.estimate_timestamps`. -/
def estimateTimestamps (chunks : List String) (transcriptSegments : Option (List PySeg))
    (videoDuration : ℤ) : List (ℤ × ℤ) :=
  match transcriptSegments with
  | none =>
    let chunkDuration := pyDiv (intToRat videoDuration) (natToRat chunks.length)
    (List.range chunks.length).map fun i =>
      (pyTrunc (pyMul (natToRat i) chunkDuration),
       pyTrunc (pyMul (natToRat (i + 1)) chunkDuration))
  | some [] =>
    let chunkDuration := pyDiv (intToRat videoDuration) (natToRat chunks.length)
    (List.range chunks.length).map fun i =>
      (pyTrunc (pyMul (natToRat i) chunkDuration),
       pyTrunc (pyMul (natToRat (i + 1)) chunkDuration))
  | some segs => tsLoop segs segs.length chunks 0

/-- `FixedSizeChunker.chunk`. -/
def FixedSizeChunker.chunk (cfg : FixedSizeChunker) (content : String)
    (transcriptSegments : Option (List PySeg) := none) (videoDuration : ℤ := 0) :
    List FSChunk :=
  let textChunks := cfg.splitText content
  let timestamps := estimateTimestamps textChunks transcriptSegments videoDuration
  (textChunks.zip timestamps).enum.map fun p =>
    { chunk_index := p.1
      chunk_text := p.2.1
      start_timestamp := some p.2.2.1
      end_timestamp := some p.2.2.2
      chunk_length := p.2.1.length
      chunk_tokens := if cfg.useTokens then some (cfg.countUnits p.2.1) else none }

/-! ## `extractors/chapters.py` — `ChapterExtractor`

The five timestamp-prefix regexes are modelled by explicit matchers with
the regex engine's preference order (greedy `\d{1,2}` tries two digits
first; the optional `(?::\d{2})?` seconds group is preferred matched;
`\s*`/`\s+` before `(.+)$` backtrack one character when the remainder
would otherwise be empty). -/

/-- `VideoChapter` dataclass. -/
structure VideoChapter where
  time : String
  title : String
  start_seconds : ℤ
  end_seconds : Option ℤ := none
deriving DecidableEq

instance : Inhabited VideoChapter := ⟨⟨"", "", 0, none⟩⟩

def pyStrip (s : String) : String :=
  (((s.toList.dropWhile isPyWs).reverse.dropWhile isPyWs).reverse).asString

/-- Python `str.split(sep)` for a nonempty separator (leftmost,
non-overlapping, keeps empties); fuel-structured so the kernel can
evaluate it (`fuel` starts at the input length and bounds the steps). -/
def splitOnSeqGo (sep : List Char) : ℕ → List Char → List Char → List (List Char)
  | 0, cur, _ => [cur.reverse]
  | _ + 1, cur, [] => [cur.reverse]
  | fuel + 1, cur, c :: rest =>
    if sep.isPrefixOf (c :: rest) then
      cur.reverse :: splitOnSeqGo sep fuel [] ((c :: rest).drop sep.length)
    else splitOnSeqGo sep fuel (c :: cur) rest

def pySplit (sep : String) (s : String) : List String :=
  (splitOnSeqGo sep.toList s.toList.length [] s.toList).map List.asString

def isTitleJunk (c : Char) : Bool :=
  c = '-' || c = '–' || c = '—' || c = '.' || isPyWs c

/-- `re.sub(r'^[-–—\.\s]+', '', ·)` then `re.sub(r'[-–—\.\s]+$', '', ·)`. -/
def stripTitleJunk (s : String) : String :=
  (((s.toList.dropWhile isTitleJunk).reverse.dropWhile isTitleJunk).reverse).asString

def digitsToNat (ds : List Char) : ℕ :=
  ds.foldl (fun acc c => acc * 10 + (c.toNat - '0'.toNat)) 0

def takeExactDigits (k : ℕ) (cs : List Char) : Option (List Char × List Char) :=
  let pre := cs.take k
  if pre.length = k ∧ pre.all Char.isDigit then some (pre, cs.drop k) else none

/-- Matches of `(\d{1,2}:\d{2}(?::\d{2})?)` at the head of `cs`, in the
regex engine's preference order.  Each candidate carries the numeric
parts, the matched token text, and the remaining input. -/
def timeCandidates (cs : List Char) : List (List ℕ × String × List Char) :=
  [2, 1].flatMap fun hl =>
    match takeExactDigits hl cs with
    | none => []
    | some (hds, r1) =>
      match r1 with
      | ':' :: r2 =>
        match takeExactDigits 2 r2 with
        | none => []
        | some (mds, r3) =>
          let short := ([digitsToNat hds, digitsToNat mds],
            (hds ++ ':' :: mds).asString, r3)
          let long :=
            match r3 with
            | ':' :: r4 =>
              match takeExactDigits 2 r4 with
              | some (sds, r5) =>
                [(([digitsToNat hds, digitsToNat mds, digitsToNat sds],
                  (hds ++ ':' :: mds ++ ':' :: sds).asString, r5))]
              | none => []
            | _ => []
          long ++ [short]
      | _ => []

/-- `\s*(.+)$`: greedily drop whitespace; if nothing remains, backtrack
one whitespace character into the title group. -/
def wsStarThenPlus (cs : List Char) : Option (List Char) :=
  let n := (cs.takeWhile isPyWs).length
  let afterWs := cs.drop n
  if afterWs ≠ [] then some afterWs
  else if 1 ≤ n then some (cs.drop (n - 1))
  else none

/-- `\s+(.+)$`. -/
def wsPlusThenPlus (cs : List Char) : Option (List Char) :=
  match cs with
  | c :: rest => if isPyWs c then wsStarThenPlus rest else none
  | [] => none

def isDashChar (c : Char) : Bool := c = '-' || c = '–' || c = '—'

/-- `\s*[-–—]\s*(.+)$` (or `\s*[\.]\s*(.+)$` with `sep := (· = '.')`). -/
def sepThenPlus (sep : Char → Bool) (cs : List Char) : Option (List Char) :=
  match cs.dropWhile isPyWs with
  | d :: rest => if sep d then wsStarThenPlus rest else none
  | [] => none

/-- Pattern `^(\d{1,2}:\d{2}(?::\d{2})?)\s*[-–—]\s*(.+)$`. -/
def matchPat1 (cs : List Char) : Option (List ℕ × String × List Char) :=
  (timeCandidates cs).findSome? fun c =>
    (sepThenPlus isDashChar c.2.2).map fun t => (c.1, c.2.1, t)

/-- Pattern `^(\d{1,2}:\d{2}(?::\d{2})?)\s+(.+)$`. -/
def matchPat2 (cs : List Char) : Option (List ℕ × String × List Char) :=
  (timeCandidates cs).findSome? fun c =>
    (wsPlusThenPlus c.2.2).map fun t => (c.1, c.2.1, t)

/-- Pattern `^(\d{1,2}:\d{2}(?::\d{2})?)\s*[\.]\s*(.+)$`. -/
def matchPat3 (cs : List Char) : Option (List ℕ × String × List Char) :=
  (timeCandidates cs).findSome? fun c =>
    (sepThenPlus (· = '.') c.2.2).map fun t => (c.1, c.2.1, t)

/-- Pattern `^\[(\d{1,2}:\d{2}(?::\d{2})?)\]\s*(.+)$`. -/
def matchPat4 (cs : List Char) : Option (List ℕ × String × List Char) :=
  match cs with
  | '[' :: rest =>
    (timeCandidates rest).findSome? fun c =>
      match c.2.2 with
      | ']' :: r => (wsStarThenPlus r).map fun t => (c.1, c.2.1, t)
      | _ => none
  | _ => none

/-- Pattern `^\((\d{1,2}:\d{2}(?::\d{2})?)\)\s*(.+)$`. -/
def matchPat5 (cs : List Char) : Option (List ℕ × String × List Char) :=
  match cs with
  | '(' :: rest =>
    (timeCandidates rest).findSome? fun c =>
      match c.2.2 with
      | ')' :: r => (wsStarThenPlus r).map fun t => (c.1, c.2.1, t)
      | _ => none
  | _ => none

/-- `ChapterExtractor._time_to_seconds` on the numeric parts of a matched
token (the `int()` conversions cannot fail on regex-matched digits). -/
def timeToSeconds (parts : List ℕ) : Option ℤ :=
  match parts with
  | [m, s] => some (m * 60 + s)
  | [h, m, s] => some (h * 3600 + m * 60 + s)
  | _ => none

def chapterPatterns : List (List Char → Option (List ℕ × String × List Char)) :=
  [matchPat1, matchPat2, matchPat3, matchPat4, matchPat5]

/-- The body of the per-pattern loop in `_parse_chapter_line`: a match
yields a chapter only if the cleaned title has length `> 2` and the time
converts; otherwise the loop moves on to the next pattern. -/
def mkChapterFromMatch (r : Option (List ℕ × String × List Char)) : Option VideoChapter :=
  match r with
  | none => none
  | some (parts, tok, titleChars) =>
    let title := stripTitleJunk (pyStrip titleChars.asString)
    if 2 < title.length then
      match timeToSeconds parts with
      | some secs => some ⟨tok, title, secs, none⟩
      | none => none
    else none

/-- `ChapterExtractor._parse_chapter_line`. -/
def parseChapterLine (line : String) : Option VideoChapter :=
  chapterPatterns.findSome? fun m => mkChapterFromMatch (m line.toList)

/-- `ChapterExtractor._set_end_times`: `chapters[i].end_seconds =
chapters[i+1].start_seconds` for all but the last. -/
def setEndTimes : List VideoChapter → List VideoChapter
  | [] => []
  | [c] => [c]
  | c :: next :: rest =>
    { c with end_seconds := some next.start_seconds } :: setEndTimes (next :: rest)

/-- The scan of `_filter_valid_chapters` after the first chapter:
keep a chapter iff it starts `≥ 10` seconds after the last kept one. -/
def filterValidGo (lastKept : VideoChapter) : List VideoChapter → List VideoChapter
  | [] => []
  | c :: rest =>
    if 10 ≤ c.start_seconds - lastKept.start_seconds then c :: filterValidGo c rest
    else filterValidGo lastKept rest

/-- `ChapterExtractor._filter_valid_chapters`. -/
def filterValidChapters : List VideoChapter → List VideoChapter
  | [] => []
  | c :: rest =>
    let filtered := c :: filterValidGo c rest
    if 2 ≤ filtered.length then filtered else []

/-- The line-candidate pass of `extract_chapters`: strip each line, skip
empty or over-long (`> 200`) lines, parse the rest. -/
def parsedCandidates (description : String) : List VideoChapter :=
  (pySplit "\n" description).filterMap fun l =>
    let line := pyStrip l
    if line = "" ∨ 200 < line.length then none else parseChapterLine line

/-- `ChapterExtractor.extract_chapters`: parse, set end times, then
filter — in that order. -/
def ChapterExtractor.extractChapters (description : String) : List VideoChapter :=
  if description = "" then []
  else filterValidChapters (setEndTimes (parsedCandidates description))

/-- `ChapterExtractor.should_use_chapters`: `coverage > 0.5` on the
**last chapter's start**, strict. -/
def ChapterExtractor.shouldUseChapters (chapters : List VideoChapter) (video_duration : ℤ) :
    Bool :=
  if chapters.length < 2 then false
  else if video_duration < 600 then false
  else
    let coverage := pyDiv (intToRat (chapters.getLastD default).start_seconds)
      (intToRat video_duration)
    decide (mkRat 1 2 < coverage)

def pad2 (n : ℤ) : String :=
  let s := toString n
  if s.length < 2 then "0" ++ s else s

/-- `ChapterExtractor._seconds_to_time`. -/
def secondsToTime (seconds : ℤ) : String :=
  let hours := seconds / 3600
  let minutes := (seconds % 3600) / 60
  let secs := seconds % 60
  if 0 < hours then toString hours ++ ":" ++ pad2 minutes ++ ":" ++ pad2 secs
  else toString minutes ++ ":" ++ pad2 secs

/-- A chapter-segment dictionary produced by `get_chapter_segments`. -/
structure ChapterSegDict where
  index : ℕ
  title : String
  start_time : ℤ
  end_time : ℤ
  duration : ℤ
  time_range : String

/-- `ChapterExtractor.get_chapter_segments`. -/
def getChapterSegments (chapters : List VideoChapter) (video_duration : ℤ) :
    List ChapterSegDict :=
  if chapters = [] then []
  else
    chapters.enum.filterMap fun p =>
      let ch := p.2
      let endTime := ch.end_seconds.getD video_duration
      let duration := endTime - ch.start_seconds
      if 30 ≤ duration then
        some { index := p.1 + 1, title := ch.title, start_time := ch.start_seconds,
               end_time := endTime, duration := duration,
               time_range := secondsToTime ch.start_seconds ++ " - " ++ secondsToTime endTime }
      else none

/-- Result dictionary of the convenience function `extract_video_chapters`. -/
structure ChaptersResult where
  has_chapters : Bool
  chapter_count : ℕ
  chapters : List PyChapter
  segments : List ChapterSegDict
  should_use_chapters : Bool

/-- `extract_video_chapters`: the chapter dicts carry keys `time`,
`title`, `start_seconds`, `end_seconds` (and no `start_time`/`end_time`). -/
def extractVideoChapters (description : String) (video_duration : ℤ := 0) : ChaptersResult :=
  let chapters := ChapterExtractor.extractChapters description
  let chaptersDicts : List PyChapter := chapters.map fun ch =>
    { time := some ch.time
      title := some ch.title
      start_seconds := some (intToRat ch.start_seconds)
      end_seconds := ch.end_seconds.map intToRat }
  if chapters ≠ [] ∧ 0 < video_duration then
    { has_chapters := decide (0 < chapters.length)
      chapter_count := chapters.length
      chapters := chaptersDicts
      segments := getChapterSegments chapters video_duration
      should_use_chapters := ChapterExtractor.shouldUseChapters chapters video_duration }
  else
    { has_chapters := decide (0 < chapters.length)
      chapter_count := chapters.length
      chapters := chaptersDicts
      segments := []
      should_use_chapters := false }

/-! ## `extractors/youtube.py` — `_parse_vtt_subtitles` -/

def containsSeq : List Char → List Char → Bool
  | needle, [] => needle.isEmpty
  | needle, c :: rest => needle.isPrefixOf (c :: rest) || containsSeq needle rest

/-- `re.split(r'\n\n+', content)`: cut at each run of two or more
newlines.  `skipping` is true while consuming the rest of the run. -/
def splitBlocksGo : Bool → List Char → List Char → List String
  | _, cur, [] => [cur.reverse.asString]
  | true, cur, c :: rest =>
    if c = '\n' then splitBlocksGo true cur rest
    else splitBlocksGo false (c :: cur) rest
  | false, cur, '\n' :: '\n' :: rest2 => cur.reverse.asString :: splitBlocksGo true [] rest2
  | false, cur, c :: rest => splitBlocksGo false (c :: cur) rest

def splitBlocksVtt (content : String) : List String :=
  splitBlocksGo false [] content.toList

/-- Python `float(str)` on an optionally signed decimal literal
(whitespace-trimmed); `None` models a `ValueError`. -/
def parseFloat (s : String) : Option ℚ :=
  let cs := (pyStrip s).toList
  let core := fun (sgn : ℤ) (ds : List Char) =>
    let intPart := ds.takeWhile Char.isDigit
    let rest := ds.drop intPart.length
    match rest with
    | '.' :: frac =>
      let fracPart := frac.takeWhile Char.isDigit
      if frac.drop fracPart.length = [] ∧ (intPart ≠ [] ∨ fracPart ≠ []) then
        some (mkRat (sgn * (digitsToNat (intPart ++ fracPart) : ℤ)) (10 ^ fracPart.length))
      else none
    | [] => if intPart ≠ [] then some (mkRat (sgn * (digitsToNat intPart : ℤ)) 1) else none
    | _ => none
  match cs with
  | '-' :: rest => core (-1) rest
  | '+' :: rest => core 1 rest
  | _ => core 1 cs

/-- `YouTubeExtractor._parse_vtt_timestamp`: `H:M:S`, `M:S` or a bare
float, each side parsed as a float; any failure yields `0.0`. -/
def parseVttTimestamp (ts : String) : ℚ :=
  match pySplit ":" ts with
  | [h, m, s] =>
    match parseFloat h, parseFloat m, parseFloat s with
    | some fh, some fm, some fs => pyAdd (pyAdd (pyMul fh 3600) (pyMul fm 60)) fs
    | _, _, _ => 0
  | [m, s] =>
    match parseFloat m, parseFloat s with
    | some fm, some fs => pyAdd (pyMul fm 60) fs
    | _, _ => 0
  | _ => (parseFloat ts).getD 0

/-- `re.sub(r'<[^>]+>', '', ·)`: drop `<`…`>` runs with a nonempty body;
an unmatched `<`, or `<>`, stays.  `pend` holds the characters consumed
since an opening `<` (reversed). -/
def removeTagsGo : Option (List Char) → List Char → List Char
  | none, [] => []
  | some pend, [] => '<' :: pend.reverse
  | none, c :: rest =>
    if c = '<' then removeTagsGo (some []) rest
    else c :: removeTagsGo none rest
  | some pend, c :: rest =>
    if c = '>' then
      if pend = [] then '<' :: '>' :: removeTagsGo none rest
      else removeTagsGo none rest
    else removeTagsGo (some (c :: pend)) rest

def removeHtmlTags (s : String) : String := (removeTagsGo none s.toList).asString

/-- First line containing `-->` together with the lines after it. -/
def findTimestampLine : List String → Option (String × List String)
  | [] => none
  | l :: rest =>
    if containsSeq "-->".toList l.toList then some (l, rest) else findTimestampLine rest

/-- The header part of one cue block of `_parse_vtt_subtitles`: the
parsed `(start, end)` times and the text lines, or `none` when the block
is skipped before the text is assembled (too few lines, no `-->` line,
no text lines, an unpacking error on `split('-->')`, or an empty
`end_str.strip().split()`). -/
def vttBlockHeader (block : String) : Option (ℚ × ℚ × List String) :=
  let lines := pySplit "\n" (pyStrip block)
  if lines.length < 2 then none
  else
    match findTimestampLine lines with
    | none => none
    | some (tsLine, textLines) =>
      if textLines = [] then none
      else
        match pySplit "-->" tsLine with
        | [startStr, endStr] =>
          match pyWords (pyStrip endStr) with
          | [] => none
          | w :: _ =>
            some (parseVttTimestamp (pyStrip startStr), parseVttTimestamp w, textLines)
        | _ => none

/-- One cue block of `_parse_vtt_subtitles`: `(text, start, duration)`
when the block contributes a segment, `none` when it is skipped. -/
def vttBlockSeg (block : String) : Option (String × ℚ × ℚ) :=
  match vttBlockHeader block with
  | none => none
  | some (startT, endT, textLines) =>
    let text := pyStrip (removeHtmlTags (String.intercalate " " textLines))
    if text = "" then none else some (text, startT, pySub endT startT)

/-- The start time a block's header parses to. -/
def vttBlockStart (block : String) : Option ℚ :=
  (vttBlockHeader block).map fun p => p.1

/-- `YouTubeExtractor._parse_vtt_subtitles`: full text and segment list. -/
def parseVttSubtitles (vtt : String) : String × List PySeg :=
  let triples := (splitBlocksVtt vtt).filterMap vttBlockSeg
  (String.intercalate " " (triples.map fun t => t.1),
   triples.map fun t => { text := some t.1, start := some t.2.1, duration := some t.2.2 })

/-! ## `extractor.py` — `ContentExtractor.extract`

The orchestrator is modelled as a function of an environment describing
what the external collaborators (cache, metadata providers, yt-dlp audio
download, Whisper, the tokenizer, the database) would return, paired
with the trace of database/network effects it performs. -/

/-- A cached `original_content` row as returned by `db.check_cache`. -/
structure CachedContent where
  id : ℕ
  contentType : String
  metadataPlatform : Option String
  rawContent : Option String
  audioFilePath : Option String
  extractionMethod : String
  chunkCount : ℕ
deriving DecidableEq

/-- The metadata dictionary built by `_extract_metadata` (both provider
paths set `platform`). -/
structure MetadataDict where
  title : String := ""
  channel : Option String := none
  duration : Option ℚ := none
  description : Option String := none
  language : Option String := none
  platform : String
deriving DecidableEq

structure ExtractEnv where
  /-- `db.check_cache(url)`. -/
  cache : Option CachedContent
  /-- `_extract_metadata(url)`: `none` covers both a `None` return and a
  raised provider error (either aborts the extraction). -/
  metadata : Option MetadataDict
  /-- `_download_audio(url)`: the stored filename, or `none` for a raised
  download error. -/
  audioDownload : Option String
  /-- The text Whisper produces (joined segment texts before `strip()`),
  `none` for a transcription exception. -/
  whisper : Option String
  /-- The id `db.save_content` assigns. -/
  newContentId : ℕ
  /-- The external tiktoken `cl100k_base` encoder. -/
  encode : String → List ℕ

inductive DbEffect
  | checkCache
  | fetchMetadata
  | downloadAudio
  | transcribe
  | saveContent (contentType : String) (rawContent : Option String)
      (audioFilePath : Option String) (extractionMethod : String)
  | saveChunks (contentId : ℕ) (count : ℕ)
deriving DecidableEq

inductive ExtractError
  | metadataUnavailable
  | audioDownloadFailed
deriving DecidableEq

structure ExtractResult where
  status : String
  contentId : ℕ
  strategy : String
  extractionMethod : String
  metadataPlatform : String
  hasTranscript : Bool
  hasAudio : Bool
  transcriptLength : Option ℕ
  audioFile : Option String
  totalChunks : ℕ
deriving DecidableEq

/-- Python truthiness of an optional string. -/
def strTruthy : Option String → Bool
  | none => false
  | some s => s ≠ ""

/-- `ContentExtractor._extract_transcript` — DISABLED in the source
("to avoid 429 bans"); it logs and returns `None` unconditionally. -/
def extractTranscript (url : String) (preferredLanguage : Option String) : Option String :=
  none

/-- Python `range(0, n, step)` for `step > 0`. -/
def pyRangeStep (n step : ℕ) : List ℕ :=
  (List.range ((n + step - 1) / step)).map (· * step)

/-- `ContentExtractor._create_chunks` as token windows; the decoded chunk
text comes from the external tokenizer and is not modelled.  Settings:
`DEFAULT_CHUNK_SIZE = 500`, `DEFAULT_CHUNK_OVERLAP = 50`. -/
def createChunksTokens (encode : String → List ℕ) (text : String) : List (List ℕ) :=
  let tokens := encode text
  (pyRangeStep tokens.length (500 - 50)).map fun i => (tokens.drop i).take 500

/-- `ContentExtractor._transcribe_audio` final value: joined text,
stripped, `None` when empty or on an exception. -/
def whisperResult (env : ExtractEnv) : Option String :=
  env.whisper.bind fun t => if pyStrip t = "" then none else some (pyStrip t)

/-- `ContentExtractor.extract`. -/
def ContentExtractor.extract (env : ExtractEnv) (url : String)
    (language : Option String := none) :
    Except ExtractError ExtractResult × List DbEffect :=
  match env.cache with
  | some cached =>
    -- cache hit: return immediately (backward-compat platform patch)
    (Except.ok {
      status := "cached"
      contentId := cached.id
      strategy := if strTruthy cached.rawContent then "transcript" else "audio"
      extractionMethod := cached.extractionMethod
      metadataPlatform := cached.metadataPlatform.getD cached.contentType
      hasTranscript := strTruthy cached.rawContent
      hasAudio := strTruthy cached.audioFilePath
      transcriptLength :=
        if strTruthy cached.rawContent then cached.rawContent.map String.length else none
      audioFile := cached.audioFilePath
      totalChunks := cached.chunkCount }, [DbEffect.checkCache])
  | none =>
    match env.metadata with
    | none => (Except.error .metadataUnavailable, [.checkCache, .fetchMetadata])
    | some md =>
      let platform := pyLower md.platform
      let isYoutube := containsSeq "youtube".toList platform.toList
      let captionTranscript := if isYoutube then extractTranscript url language else none
      match captionTranscript with
      | some t =>
        -- (dead in the source: `_extract_transcript` always returns None)
        let chunkCount := (createChunksTokens env.encode t).length
        (Except.ok {
          status := "success"
          contentId := env.newContentId
          strategy := "transcript"
          extractionMethod := "yt-dlp_transcript"
          metadataPlatform := md.platform
          hasTranscript := strTruthy (some t)
          hasAudio := false
          transcriptLength := if strTruthy (some t) then some t.length else none
          audioFile := none
          totalChunks := if strTruthy (some t) then chunkCount else 0 },
         [.checkCache, .fetchMetadata,
          .saveContent platform (some t) none "yt-dlp_transcript"] ++
          (if strTruthy (some t) then [.saveChunks env.newContentId chunkCount] else []))
      | none =>
        match env.audioDownload with
        | none => (Except.error .audioDownloadFailed, [.checkCache, .fetchMetadata, .downloadAudio])
        | some audioFile =>
          match whisperResult env with
          | some t =>
            let chunkCount := (createChunksTokens env.encode t).length
            (Except.ok {
              status := "success"
              contentId := env.newContentId
              strategy := "whisper"
              extractionMethod := "whisper_transcription"
              metadataPlatform := md.platform
              hasTranscript := true
              hasAudio := strTruthy (some audioFile)
              transcriptLength := some t.length
              audioFile := some audioFile
              totalChunks := chunkCount },
             [.checkCache, .fetchMetadata, .downloadAudio, .transcribe,
              .saveContent platform (some t) (some audioFile) "whisper_transcription",
              .saveChunks env.newContentId chunkCount])
          | none =>
            -- transcription failed: content is still saved, status is "success"
            (Except.ok {
              status := "success"
              contentId := env.newContentId
              strategy := "audio"
              extractionMethod := "yt-dlp_audio"
              metadataPlatform := md.platform
              hasTranscript := false
              hasAudio := strTruthy (some audioFile)
              transcriptLength := none
              audioFile := some audioFile
              totalChunks := 0 },
             [.checkCache, .fetchMetadata, .downloadAudio, .transcribe,
              .saveContent platform none (some audioFile) "yt-dlp_audio"])

end SamBot

namespace SamBot

/-- C8: for a `RateLimiter` holding a previously recorded call time, a later
`wait_if_needed` call sleeps exactly the missing part of `min_interval`
(returning that wait), records the post-sleep clock reading, and the newly
recorded timestamp is at least `min_interval` after the previous one. -/
theorem rateLimiter_spacing (rl : RateLimiter) (t1 t2 last : ℚ)
    (hlast : rl.lastRequestTime = some last)
    (hclock : t1 + (rl.waitIfNeeded t1 t2).1 ≤ t2) :
    (rl.waitIfNeeded t1 t2).2.lastRequestTime = some t2 ∧
    rl.minInterval ≤ t2 - last ∧
    (rl.waitIfNeeded t1 t2).1 = max 0 (rl.minInterval - (t1 - last)) := by
  unfold RateLimiter.waitIfNeeded at hclock ⊢
  rw [hlast] at hclock ⊢
  dsimp only at hclock ⊢
  by_cases h : t1 - last < rl.minInterval
  · rw [if_pos h] at hclock ⊢
    dsimp only at hclock ⊢
    exact ⟨rfl, by linarith, by rw [max_eq_right (by linarith)]⟩
  · rw [if_neg h] at hclock ⊢
    dsimp only at hclock ⊢
    push_neg at h
    exact ⟨rfl, by linarith, by rw [max_eq_left (by linarith)]⟩

/-- Witness for C8 at a concrete limiter state and clock readings. -/
theorem rateLimiter_spacing_witness :
    ((⟨1, some 0⟩ : RateLimiter).waitIfNeeded 10 70).2.lastRequestTime = some 70 ∧
    (⟨1, some 0⟩ : RateLimiter).minInterval ≤ 70 - 0 := by
  have h := rateLimiter_spacing ⟨1, some 0⟩ 10 70 0 rfl
    (by norm_num [RateLimiter.waitIfNeeded, RateLimiter.minInterval])
  exact ⟨h.1, h.2.1⟩

/-! ### C7 — cache hit short-circuits everything -/

/-- C7: on a cache hit, `extract` returns `status="cached"` with the cached
row's id (and the cached metadata, patched with `platform` when an old
record lacks it), and its effect trace is exactly the single cache read:
no metadata fetch, no download, no transcription, and no store of any
kind. -/
theorem extract_cache_hit (env : ExtractEnv) (url : String) (language : Option String)
    (c : CachedContent) (hc : env.cache = some c) :
    ContentExtractor.extract env url language =
      (Except.ok
        { status := "cached"
          contentId := c.id
          strategy := if strTruthy c.rawContent then "transcript" else "audio"
          extractionMethod := c.extractionMethod
          metadataPlatform := c.metadataPlatform.getD c.contentType
          hasTranscript := strTruthy c.rawContent
          hasAudio := strTruthy c.audioFilePath
          transcriptLength :=
            if strTruthy c.rawContent then c.rawContent.map String.length else none
          audioFile := c.audioFilePath
          totalChunks := c.chunkCount }, [DbEffect.checkCache]) := by
  unfold ContentExtractor.extract
  rw [hc]

def cachedRow : CachedContent :=
  { id := 3, contentType := "youtube", metadataPlatform := none, rawContent := some "tx",
    audioFilePath := none, extractionMethod := "yt-dlp_transcript", chunkCount := 4 }

def envCacheHit : ExtractEnv :=
  { cache := some cachedRow, metadata := none, audioDownload := none, whisper := none,
    newContentId := 0, encode := fun _ => [] }

/-- Witness for C7 at a concrete environment. -/
theorem extract_cache_hit_witness :
    ContentExtractor.extract envCacheHit "https://youtu.be/x" none =
      (Except.ok
        { status := "cached", contentId := 3, strategy := "transcript",
          extractionMethod := "yt-dlp_transcript", metadataPlatform := "youtube",
          hasTranscript := true, hasAudio := false, transcriptLength := some 2,
          audioFile := none, totalChunks := 4 }, [DbEffect.checkCache]) :=
  extract_cache_hit envCacheHit "https://youtu.be/x" none cachedRow rfl

/-! ### C1 — what happens when transcription fails -/

def envTranscribeFail : ExtractEnv :=
  { cache := none, metadata := some { platform := "youtube" }, audioDownload := some "a.mp3",
    whisper := none, newContentId := 1, encode := fun _ => [] }

/-- C1 counterexample: with no cached row, metadata resolved, the audio
download succeeding and Whisper transcription failing, `extract` returns
`status="success"` (not `status="error"` with a typed kind) and a
`Content` row **is** stored, carrying metadata and the audio path but a
null transcript. -/
theorem extract_transcription_failure_cex :
    (ContentExtractor.extract envTranscribeFail "u" none).1 =
      Except.ok
        { status := "success", contentId := 1, strategy := "audio",
          extractionMethod := "yt-dlp_audio", metadataPlatform := "youtube",
          hasTranscript := false, hasAudio := true, transcriptLength := none,
          audioFile := some "a.mp3", totalChunks := 0 } ∧
    DbEffect.saveContent "youtube" none (some "a.mp3") "yt-dlp_audio" ∈
      (ContentExtractor.extract envTranscribeFail "u" none).2 := by
  constructor
  · rfl
  · decide

/-- C1 (amended): when no transcript is obtained and transcription fails
after a successful audio download, `extract` still stores a `Content` row
(audio path, null raw content) and returns `status="success"` with
`extraction_method="yt-dlp_audio"` and zero chunks; only metadata
resolution failure and audio download failure abort the extraction — by
raising (no `status="error"` result is ever produced) — and store
nothing. -/
theorem extract_failure_semantics :
    (∀ env url lang (md : MetadataDict) f, env.cache = none → env.metadata = some md →
       env.audioDownload = some f → whisperResult env = none →
       ContentExtractor.extract env url lang =
         (Except.ok
           { status := "success", contentId := env.newContentId, strategy := "audio",
             extractionMethod := "yt-dlp_audio", metadataPlatform := md.platform,
             hasTranscript := false, hasAudio := strTruthy (some f), transcriptLength := none,
             audioFile := some f, totalChunks := 0 },
          [.checkCache, .fetchMetadata, .downloadAudio, .transcribe,
           .saveContent (pyLower md.platform) none (some f) "yt-dlp_audio"])) ∧
    (∀ env url lang, env.cache = none → env.metadata = none →
       ContentExtractor.extract env url lang =
         (Except.error .metadataUnavailable, [.checkCache, .fetchMetadata])) ∧
    (∀ env url lang (md : MetadataDict), env.cache = none → env.metadata = some md →
       env.audioDownload = none →
       ContentExtractor.extract env url lang =
         (Except.error .audioDownloadFailed, [.checkCache, .fetchMetadata, .downloadAudio])) := by
  refine ⟨?_, ?_, ?_⟩
  · intro env url lang md f hc hm ha hw
    unfold ContentExtractor.extract
    rw [hc, hm]
    simp only [extractTranscript, ite_self]
    rw [ha, hw]
  · intro env url lang hc hm
    unfold ContentExtractor.extract
    rw [hc, hm]
  · intro env url lang md hc hm ha
    unfold ContentExtractor.extract
    rw [hc, hm]
    simp only [extractTranscript, ite_self]
    rw [ha]

/-- Witness for C1 (amended) at concrete environments. -/
theorem extract_failure_semantics_witness :
    ContentExtractor.extract envTranscribeFail "u" none =
      (Except.ok
        { status := "success", contentId := 1, strategy := "audio",
          extractionMethod := "yt-dlp_audio", metadataPlatform := "youtube",
          hasTranscript := false, hasAudio := true, transcriptLength := none,
          audioFile := some "a.mp3", totalChunks := 0 },
       [.checkCache, .fetchMetadata, .downloadAudio, .transcribe,
        .saveContent "youtube" none (some "a.mp3") "yt-dlp_audio"]) ∧
    ContentExtractor.extract { envTranscribeFail with metadata := none } "u" none =
      (Except.error .metadataUnavailable, [.checkCache, .fetchMetadata]) :=
  ⟨extract_failure_semantics.1 envTranscribeFail "u" none { platform := "youtube" } "a.mp3"
      rfl rfl rfl rfl,
   extract_failure_semantics.2.1 { envTranscribeFail with metadata := none } "u" none rfl rfl⟩

/-! ### C5 — the caption path is disabled -/

def envWhisperOk : ExtractEnv := { envTranscribeFail with whisper := some "hello world" }

/-- C5 counterexample: even for a YouTube URL where every step succeeds,
the caption-based path is never taken — `_extract_transcript` returns
`None` unconditionally — so the result's extraction method is
`whisper_transcription`, never the transcript method. -/
theorem extract_transcript_method_cex :
    (ContentExtractor.extract envWhisperOk "https://youtube.com/watch?v=abc" none).1 =
      Except.ok
        { status := "success", contentId := 1, strategy := "whisper",
          extractionMethod := "whisper_transcription", metadataPlatform := "youtube",
          hasTranscript := true, hasAudio := true, transcriptLength := some 11,
          audioFile := some "a.mp3", totalChunks := 0 } ∧
    ("whisper_transcription" : String) ≠ "yt-dlp_transcript" := by
  constructor
  · rfl
  · decide

/-- C5 (amended): `_extract_transcript` is disabled and returns `None`
for every input, so on a cache miss a successful `extract` never reports
the caption-transcript method: its extraction method is either
`yt-dlp_audio` (transcription failed) or `whisper_transcription`. -/
theorem extract_captions_disabled :
    (∀ url lang, extractTranscript url lang = none) ∧
    (∀ env url lang (r : ExtractResult), env.cache = none →
       (ContentExtractor.extract env url lang).1 = Except.ok r →
       r.extractionMethod = "yt-dlp_audio" ∨ r.extractionMethod = "whisper_transcription") := by
  refine ⟨fun _ _ => rfl, ?_⟩
  intro env url lang r hc h
  unfold ContentExtractor.extract at h
  rw [hc] at h
  rcases hm : env.metadata with _ | md
  · rw [hm] at h
    simp at h
  · rw [hm] at h
    simp only [extractTranscript, ite_self] at h
    rcases ha : env.audioDownload with _ | f
    · rw [ha] at h
      simp at h
    · rw [ha] at h
      rcases hw : whisperResult env with _ | t
      · rw [hw] at h
        simp only at h
        rw [← Except.ok.inj h]
        left
        rfl
      · rw [hw] at h
        simp only at h
        rw [← Except.ok.inj h]
        right
        rfl

/-- Witness for C5 (amended) at a concrete environment. -/
theorem extract_captions_disabled_witness :
    extractTranscript "https://youtube.com/watch?v=abc" (some "en") = none ∧
    (({ status := "success", contentId := 1, strategy := "whisper",
        extractionMethod := "whisper_transcription", metadataPlatform := "youtube",
        hasTranscript := true, hasAudio := true, transcriptLength := some 11,
        audioFile := some "a.mp3", totalChunks := 0 } : ExtractResult).extractionMethod
          = "yt-dlp_audio" ∨
     ({ status := "success", contentId := 1, strategy := "whisper",
        extractionMethod := "whisper_transcription", metadataPlatform := "youtube",
        hasTranscript := true, hasAudio := true, transcriptLength := some 11,
        audioFile := some "a.mp3", totalChunks := 0 } : ExtractResult).extractionMethod
          = "whisper_transcription") :=
  ⟨extract_captions_disabled.1 "https://youtube.com/watch?v=abc" (some "en"),
   extract_captions_disabled.2 envWhisperOk "u" none _ rfl rfl⟩

/-! ### C2 — chunk indices -/

theorem chunkByChaptersGo_index_ge (segs : List PySeg) (vd : ℚ) :
    ∀ (chapters : List PyChapter) (idx : ℕ) (c : CBChunk),
      c ∈ chunkByChaptersGo segs vd idx chapters → idx ≤ c.chunk_index := by
  intro chapters
  induction chapters with
  | nil => intro idx c h; simp [chunkByChaptersGo] at h
  | cons ch rest ih =>
    intro idx c h
    rw [chunkByChaptersGo] at h
    split at h
    · exact le_trans (Nat.le_succ idx) (ih (idx + 1) c h)
    · rcases List.mem_cons.mp h with h1 | h1
      · subst h1; exact le_refl idx
      · exact le_trans (Nat.le_succ idx) (ih (idx + 1) c h1)

theorem chunkByChaptersGo_pairwise (segs : List PySeg) (vd : ℚ) :
    ∀ (chapters : List PyChapter) (idx : ℕ),
      ((chunkByChaptersGo segs vd idx chapters).map (·.chunk_index)).Pairwise (· < ·) := by
  intro chapters
  induction chapters with
  | nil => intro idx; simp [chunkByChaptersGo]
  | cons ch rest ih =>
    intro idx
    rw [chunkByChaptersGo]
    split
    · exact ih (idx + 1)
    · rw [List.map_cons, List.pairwise_cons]
      refine ⟨?_, ih (idx + 1)⟩
      intro b hb
      rcases List.mem_map.mp hb with ⟨c, hc, hbc⟩
      have := chunkByChaptersGo_index_ge segs vd rest (idx + 1) c hc
      change idx < b
      omega

/-- C2 counterexample: a chapter list whose middle chapter matches no
segment yields chunk indices `[0, 2]` for two returned chunks — not the
claimed contiguous `0..N-1`. -/
theorem chunk_indices_cex :
    ((ChapterBasedChunker.chunkByChapters "txt"
        [{ text := some "a", start := some 5 }, { text := some "c", start := some 25 }]
        [{ start_time := some 0, end_time := some 10 },
         { start_time := some 30, end_time := some 40 },
         { start_time := some 20, end_time := some 30 }] 60).map (·.chunk_index)) = [0, 2] ∧
    ((ChapterBasedChunker.chunkByChapters "txt"
        [{ text := some "a", start := some 5 }, { text := some "c", start := some 25 }]
        [{ start_time := some 0, end_time := some 10 },
         { start_time := some 30, end_time := some 40 },
         { start_time := some 20, end_time := some 30 }] 60).map (·.chunk_index)) ≠
      List.range (ChapterBasedChunker.chunkByChapters "txt"
        [{ text := some "a", start := some 5 }, { text := some "c", start := some 25 }]
        [{ start_time := some 0, end_time := some 10 },
         { start_time := some 30, end_time := some 40 },
         { start_time := some 20, end_time := some 30 }] 60).length := by
  constructor
  · rfl
  · decide

/-- C2 (amended): the fixed-window strategy numbers its chunks exactly
`0..N-1`; the chapter-based strategy numbers each chunk with the index of
its originating chapter, so indices are strictly increasing but may have
gaps where a chapter with no matching segments was skipped. -/
theorem chunk_indices :
    (∀ (cfg : FixedSizeChunker) (content : String) (segs : Option (List PySeg))
       (vd : ℤ), ((cfg.chunk content segs vd).map (·.chunk_index)) =
         List.range (cfg.chunk content segs vd).length) ∧
    (∀ (content : String) (segs : List PySeg) (chapters : List PyChapter) (vd : ℤ),
       ((ChapterBasedChunker.chunkByChapters content segs chapters vd).map
         (·.chunk_index)).Pairwise (· < ·)) := by
  constructor
  · intro cfg content segs vd
    unfold FixedSizeChunker.chunk
    simp only [List.map_map, List.length_map, List.enum_length]
    exact List.enum_map_fst _
  · intro content segs chapters vd
    exact chunkByChaptersGo_pairwise segs (intToRat vd) chapters 0

/-! ### C10 — empty content -/

def fsCharChunker : FixedSizeChunker := { countUnits := String.length, useTokens := false }

/-- C10 counterexample: on empty content the fixed-window chunker
returns one chunk (with empty text), not zero chunks. -/
theorem fixed_chunk_empty_cex :
    (fsCharChunker.chunk "" none 0).length = 1 ∧
    ((fsCharChunker.chunk "" none 0).map fun c => (c.chunk_index, c.chunk_text)) = [(0, "")] ∧
    (fsCharChunker.chunk "" none 0).length ≠ 0 := by
  refine ⟨rfl, rfl, by decide⟩

/-- C10 (amended): for empty input content the fixed-window strategy
raises no error and returns exactly one chunk, whose text is empty, for
any unit counter, segment list and duration. -/
theorem fixed_chunk_empty_content (cfg : FixedSizeChunker) (segs : Option (List PySeg))
    (vd : ℤ) :
    ((cfg.chunk "" segs vd).map fun c => (c.chunk_index, c.chunk_text)) = [(0, "")] := by
  have hsplit : cfg.splitText "" = [""] := by
    unfold FixedSizeChunker.splitText splitSentences
    show splitTextLoop cfg.countUnits cfg.chunk_size cfg.overlap [""] [] 0 = [""]
    rw [splitTextLoop]
    rw [if_neg (by simp)]
    rfl
  unfold FixedSizeChunker.chunk
  rw [hsplit]
  rcases segs with _ | ⟨_ | ⟨s, ss⟩⟩
  · rfl
  · rfl
  · rfl

/-- Witness for C10 (amended) at a concrete configuration. -/
theorem fixed_chunk_empty_content_witness :
    ((fsCharChunker.chunk "" (some [{ text := some "w", start := some 1 }]) 30).map
      fun c => (c.chunk_index, c.chunk_text)) = [(0, "")] :=
  fixed_chunk_empty_content fsCharChunker (some [{ text := some "w", start := some 1 }]) 30

/-! ### C6 — the chapter usability gates -/

/-- C6 counterexample: at exactly 50 % coverage
(`last start = 300`, `duration = 600`) `ChapterExtractor.should_use_chapters`
returns `false` although the claim's three conditions all hold (its
comparison is strict); and the gate the chunking engine consumes,
`ChapterBasedChunker.should_use_chapters`, returns `true` for a chapter
list whose last start (10 of 600) is far below 50 % — it looks at the
`end_time` key, absent here, defaulting to the full duration. -/
theorem chapter_gate_cex :
    ChapterExtractor.shouldUseChapters
      [⟨"0:00", "Aaa", 0, none⟩, ⟨"5:00", "Bbb", 300, none⟩] 600 = false ∧
    (2 ≤ ([⟨"0:00", "Aaa", 0, none⟩, ⟨"5:00", "Bbb", 300, none⟩] : List VideoChapter).length ∧
      (600 : ℤ) ≤ 600 ∧ (600 : ℤ) ≤ 2 * 300) ∧
    ChapterBasedChunker.shouldUseChapters
      [{ start_seconds := some 0 }, { start_seconds := some 10 }] 600 = true ∧
    2 * 10 < (600 : ℤ) := by
  refine ⟨by decide, by decide, by decide, by decide⟩

/-- C6 (amended): `ChapterExtractor.should_use_chapters` is true iff
there are at least 2 chapters, the duration is at least 600 s, and the
last chapter's start covers **strictly more than** 50 % of the duration;
`ChapterBasedChunker.should_use_chapters` (the gate the chunking engine
consumes) instead tests the last chapter's `end_time` value — defaulting
to the full duration when that key is absent — with a non-strict ≥ 50 %
comparison. -/
theorem chapter_usability_gates (cs : List VideoChapter) (cs' : List PyChapter) (vd : ℤ) :
    (ChapterExtractor.shouldUseChapters cs vd = true ↔
      (2 ≤ cs.length ∧ 600 ≤ vd ∧
        (vd : ℚ) < 2 * ((cs.getLastD default).start_seconds : ℚ))) ∧
    (ChapterBasedChunker.shouldUseChapters cs' vd = true ↔
      (2 ≤ cs'.length ∧ 600 ≤ vd ∧
        (vd : ℚ) ≤ 2 * ((cs'.getLastD default).end_time.getD ((vd : ℤ) : ℚ)))) := by
  constructor
  · rw [ChapterExtractor.shouldUseChapters]
    by_cases h1 : cs.length < 2
    · rw [if_pos h1]
      simp only [Bool.false_eq_true, false_iff]
      rintro ⟨ha, -, -⟩
      omega
    · rw [if_neg h1]
      by_cases h2 : vd < 600
      · rw [if_pos h2]
        simp only [Bool.false_eq_true, false_iff]
        rintro ⟨-, hb, -⟩
        omega
      · rw [if_neg h2]
        push_neg at h1 h2
        have hvd : (0 : ℚ) < (vd : ℚ) := by exact_mod_cast (by omega : (0 : ℤ) < vd)
        simp only [decide_eq_true_eq]
        rw [pyDiv_eq, intToRat_eq, intToRat_eq, mkRat_eq_div']
        constructor
        · intro h
          refine ⟨h1, h2, ?_⟩
          rw [div_lt_div_iff (by norm_num) hvd] at h
          push_cast at h ⊢
          linarith
        · rintro ⟨-, -, hc⟩
          rw [div_lt_div_iff (by norm_num) hvd]
          push_cast
          linarith
  · rw [ChapterBasedChunker.shouldUseChapters]
    by_cases h1 : cs'.length < 2
    · rw [if_pos h1]
      simp only [Bool.false_eq_true, false_iff]
      rintro ⟨ha, -, -⟩
      omega
    · rw [if_neg h1]
      by_cases h2 : vd < 600
      · rw [if_pos h2]
        simp only [Bool.false_eq_true, false_iff]
        rintro ⟨-, hb, -⟩
        omega
      · rw [if_neg h2]
        push_neg at h1 h2
        have h0 : (0 : ℤ) < vd := by omega
        have hvd : (0 : ℚ) < (vd : ℚ) := by exact_mod_cast h0
        dsimp only
        rw [if_pos h0, pyDiv_eq, intToRat_eq]
        by_cases h3 :
            ((cs'.getLastD default).end_time.getD ((vd : ℤ) : ℚ)) / (vd : ℚ) < mkRat 1 2
        · rw [if_pos h3]
          simp only [Bool.false_eq_true, false_iff]
          rintro ⟨-, -, hc⟩
          rw [mkRat_eq_div', div_lt_div_iff hvd (by norm_num)] at h3
          push_cast at h3
          linarith
        · rw [if_neg h3]
          simp only [true_iff]
          refine ⟨h1, h2, ?_⟩
          push_neg at h3
          rw [mkRat_eq_div', div_le_div_iff (by norm_num) hvd] at h3
          push_cast at h3
          linarith

/-! ### C3 — chapter tiling -/

/-- The claim's adjacency property: every chapter's end equals the next
chapter's start. -/
def chapterEndsOk : List VideoChapter → Bool
  | c :: next :: rest => (c.end_seconds == some next.start_seconds) && chapterEndsOk (next :: rest)
  | _ => true

/-- Consecutive chapters all start at least 10 seconds apart (the
condition under which `_filter_valid_chapters` discards nothing). -/
def startGapsOk : List VideoChapter → Bool
  | c :: next :: rest =>
    decide (10 ≤ next.start_seconds - c.start_seconds) && startGapsOk (next :: rest)
  | _ => true

theorem setEndTimes_endsOk : ∀ l : List VideoChapter, chapterEndsOk (setEndTimes l) = true := by
  intro l
  induction l with
  | nil => rfl
  | cons c rest ih =>
    cases rest with
    | nil => rfl
    | cons next rest2 =>
      cases rest2 with
      | nil => simp [setEndTimes, chapterEndsOk]
      | cons n3 r3 =>
        rw [setEndTimes]
        rw [setEndTimes] at ih ⊢
        rw [chapterEndsOk]
        simp only [beq_self_eq_true, Bool.true_and]
        exact ih

theorem setEndTimes_length : ∀ l : List VideoChapter, (setEndTimes l).length = l.length := by
  intro l
  induction l with
  | nil => rfl
  | cons c rest ih =>
    cases rest with
    | nil => rfl
    | cons next rest2 =>
      rw [setEndTimes, List.length_cons, List.length_cons, ih]

theorem startGapsOk_setEndTimes :
    ∀ l : List VideoChapter, startGapsOk (setEndTimes l) = startGapsOk l := by
  intro l
  induction l with
  | nil => rfl
  | cons c rest ih =>
    cases rest with
    | nil => rfl
    | cons next rest2 =>
      cases rest2 with
      | nil => rfl
      | cons n3 r3 =>
        rw [setEndTimes]
        rw [setEndTimes] at ih ⊢
        rw [startGapsOk, startGapsOk, ih]

theorem setEndTimes_getLastD :
    ∀ (l : List VideoChapter) (d : VideoChapter), (setEndTimes l).getLastD d = l.getLastD d := by
  intro l
  induction l with
  | nil => intro d; rfl
  | cons c rest ih =>
    intro d
    cases rest with
    | nil => rfl
    | cons next rest2 =>
      rw [setEndTimes]
      simp only [List.getLastD_cons]
      rw [ih]
      simp only [List.getLastD_cons]

theorem filterValidGo_keeps :
    ∀ (rest : List VideoChapter) (c : VideoChapter),
      startGapsOk (c :: rest) = true → filterValidGo c rest = rest := by
  intro rest
  induction rest with
  | nil => intro c _; rfl
  | cons r rs ih =>
    intro c h
    rw [startGapsOk, Bool.and_eq_true] at h
    rw [filterValidGo, if_pos (of_decide_eq_true h.1), ih r h.2]

theorem filterValidChapters_id (l : List VideoChapter)
    (hgap : startGapsOk l = true) (hlen : 2 ≤ l.length) :
    filterValidChapters l = l := by
  cases l with
  | nil => simp at hlen
  | cons c rest =>
    rw [filterValidChapters]
    rw [filterValidGo_keeps rest c hgap]
    rw [if_pos hlen]

theorem mkChapterFromMatch_end (r : Option (List ℕ × String × List Char)) (c : VideoChapter)
    (h : mkChapterFromMatch r = some c) : c.end_seconds = none := by
  unfold mkChapterFromMatch at h
  rcases r with _ | ⟨parts, tok, t⟩
  · cases h
  · dsimp only at h
    split_ifs at h
    · split at h
      · rw [← Option.some.inj h]
      · cases h

theorem parsedCandidates_end_none (d : String) (c : VideoChapter)
    (hc : c ∈ parsedCandidates d) : c.end_seconds = none := by
  unfold parsedCandidates at hc
  rcases List.mem_filterMap.mp hc with ⟨l, -, hl⟩
  dsimp only at hl
  split_ifs at hl
  unfold parseChapterLine at hl
  rcases List.exists_of_findSome?_eq_some hl with ⟨m, -, hm⟩
  exact mkChapterFromMatch_end _ _ hm

def gapDescription : String :=
  "0:00 - Introduction\n1:40 - Second part\n1:45 - Third part\n3:20 - Final part"

/-- C3 counterexample: `ChapterParser` accepts this description (three
chapters), yet `chapters[1].end_seconds = 105` while
`chapters[2].start_seconds = 200`: end times are assigned **before** the
10-second proximity filter runs, so a discarded chapter leaves a gap and
the accepted set does not tile the interval. -/
theorem chapters_tiling_cex :
    ((ChapterExtractor.extractChapters gapDescription).map
        fun c => (c.start_seconds, c.end_seconds)) =
      [(0, some 100), (100, some 105), (200, none)] ∧
    ChapterExtractor.extractChapters gapDescription ≠ [] ∧
    chapterEndsOk (ChapterExtractor.extractChapters gapDescription) = false := by
  refine ⟨rfl, by decide, rfl⟩

/-- C3 (amended): whenever the parsed chapter candidates are pairwise at
least 10 seconds apart — so `_filter_valid_chapters` discards none of
them — and at least two are accepted, every accepted chapter's end equals
the next chapter's start and the last chapter's end is `None` (resolved
to the total duration by the caller), so the set tiles
`[chapters[0].start, duration]`.  When the filter does discard a
candidate, an accepted chapter can keep the discarded chapter's start as
its end (see the counterexample). -/
theorem chapters_tile_when_no_discard (d : String)
    (hgap : startGapsOk (parsedCandidates d) = true)
    (hlen : 2 ≤ (parsedCandidates d).length) :
    ChapterExtractor.extractChapters d = setEndTimes (parsedCandidates d) ∧
    chapterEndsOk (ChapterExtractor.extractChapters d) = true ∧
    ((ChapterExtractor.extractChapters d).getLastD default).end_seconds = none ∧
    (ChapterExtractor.extractChapters d).length = (parsedCandidates d).length := by
  have hd : d ≠ "" := by
    intro h
    rw [h] at hlen
    exact absurd hlen (by decide)
  have hExtract : ChapterExtractor.extractChapters d =
      filterValidChapters (setEndTimes (parsedCandidates d)) := by
    unfold ChapterExtractor.extractChapters
    rw [if_neg hd]
  have hgap' : startGapsOk (setEndTimes (parsedCandidates d)) = true := by
    rw [startGapsOk_setEndTimes]
    exact hgap
  have hlen' : 2 ≤ (setEndTimes (parsedCandidates d)).length := by
    rw [setEndTimes_length]
    exact hlen
  have hfil := filterValidChapters_id _ hgap' hlen'
  refine ⟨hExtract.trans hfil, ?_, ?_, ?_⟩
  · rw [hExtract, hfil]
    exact setEndTimes_endsOk _
  · rw [hExtract, hfil, setEndTimes_getLastD]
    have hne : parsedCandidates d ≠ [] := by
      intro h
      rw [h] at hlen
      simp at hlen
    have hmem : (parsedCandidates d).getLastD default ∈ parsedCandidates d := by
      cases hpc : parsedCandidates d with
      | nil => exact absurd hpc hne
      | cons a as =>
        rw [List.getLastD_cons]
        exact List.getLastD_mem_cons as a
    exact parsedCandidates_end_none d _ hmem
  · rw [hExtract, hfil, setEndTimes_length]

def farDescription : String := "0:00 - Introduction\n5:30 - Setup part\n45:00 - Conclusion"

/-- Witness for C3 (amended) at a concrete description. -/
theorem chapters_tile_when_no_discard_witness :
    chapterEndsOk (ChapterExtractor.extractChapters farDescription) = true ∧
    ((ChapterExtractor.extractChapters farDescription).getLastD default).end_seconds = none :=
  ⟨(chapters_tile_when_no_discard farDescription (by decide) (by decide)).2.1,
   (chapters_tile_when_no_discard farDescription (by decide) (by decide)).2.2.1⟩

/-! ### C4 — the `start_time`/`start_seconds` key mismatch -/

/-- The segment window `[0, video_duration)` that every chapter collapses
to under the key mismatch. -/
def defaultWindowFilter (segs : List PySeg) (vd : ℚ) : List PySeg :=
  segs.filter fun s => decide ((0 : ℚ) ≤ s.start.getD 0) && decide (s.start.getD 0 < vd)

theorem extractVideoChapters_keys (d : String) (vd : ℤ) :
    ∀ ch ∈ (extractVideoChapters d vd).chapters, ch.start_time = none ∧ ch.end_time = none := by
  intro ch hch
  unfold extractVideoChapters at hch
  dsimp only at hch
  split_ifs at hch <;>
  · rcases List.mem_map.mp hch with ⟨c0, -, h⟩
    rw [← h]
    exact ⟨rfl, rfl⟩

theorem chunkByChaptersGo_defaultWindow (segs : List PySeg) (vd : ℚ) :
    ∀ (chapters : List PyChapter) (idx : ℕ),
      (∀ ch ∈ chapters, ch.start_time = none ∧ ch.end_time = none) →
      ∀ ck ∈ chunkByChaptersGo segs vd idx chapters,
        ck.start_timestamp = 0 ∧ ck.end_timestamp = vd ∧
        ck.chunk_text = String.intercalate " "
          ((defaultWindowFilter segs vd).map fun s => s.text.getD "") := by
  intro chapters
  induction chapters with
  | nil => intro idx _ ck hck; simp [chunkByChaptersGo] at hck
  | cons ch rest ih =>
    intro idx h ck hck
    obtain ⟨hs, he⟩ := h ch (List.mem_cons_self ch rest)
    rw [chunkByChaptersGo, hs, he] at hck
    simp only [Option.getD_none] at hck
    split at hck
    · exact ih (idx + 1) (fun c hc => h c (List.mem_cons_of_mem ch hc)) ck hck
    · rcases List.mem_cons.mp hck with h1 | h1
      · rw [h1]
        exact ⟨rfl, rfl, rfl⟩
      · exact ih (idx + 1) (fun c hc => h c (List.mem_cons_of_mem ch hc)) ck h1

theorem chunkByChaptersGo_fullLength (segs : List PySeg) (vd : ℚ)
    (hne : defaultWindowFilter segs vd ≠ []) :
    ∀ (chapters : List PyChapter) (idx : ℕ),
      (∀ ch ∈ chapters, ch.start_time = none ∧ ch.end_time = none) →
      (chunkByChaptersGo segs vd idx chapters).length = chapters.length := by
  unfold defaultWindowFilter at hne
  intro chapters
  induction chapters with
  | nil => intro idx _; rfl
  | cons ch rest ih =>
    intro idx h
    obtain ⟨hs, he⟩ := h ch (List.mem_cons_self ch rest)
    rw [chunkByChaptersGo, hs, he]
    simp only [Option.getD_none]
    rw [if_neg hne]
    rw [List.length_cons, ih (idx + 1) (fun c hc => h c (List.mem_cons_of_mem ch hc))]
    rfl

def mismatchDescription : String := "0:00 - Intro line\n0:30 - Second chapter"

def mismatchSegs : List PySeg :=
  [{ text := some "a", start := some 0 }, { text := some "b", start := some 150 }]

/-- C4 counterexample: with a 100-second duration and a segment starting
at 150, both chunks produced from the two extracted chapters carry the
text `"a"` — the out-of-window segment `"b"` is dropped — so a chunk does
not contain the concatenation of **all** segment texts (`"a b"`), while
both chunks do span `[0, 100)`. -/
theorem chapter_key_mismatch_cex :
    ((ChapterBasedChunker.chunkByChapters "" mismatchSegs
        (extractVideoChapters mismatchDescription 100).chapters 100).map
      fun c => (c.chunk_text, c.start_timestamp, c.end_timestamp)) =
      [("a", 0, 100), ("a", 0, 100)] ∧
    ("a" : String) ≠ "a b" := by
  refine ⟨rfl, by decide⟩

/-- C4 (amended): the chapter dicts produced by `extract_video_chapters`
carry no `start_time`/`end_time` keys, so `chunk_by_chapters` reads every
chapter's window as `[0, video_duration)`; consequently every emitted
chunk has `start_timestamp = 0`, `end_timestamp = video_duration`, and
text equal to the space-joined texts of exactly those segments whose
start lies in `[0, video_duration)` — and when that window is nonempty,
one such identical chunk is emitted per extracted chapter. -/
theorem chapter_key_mismatch (d : String) (vd : ℤ) (content : String) (segs : List PySeg) :
    (∀ ch ∈ (extractVideoChapters d vd).chapters,
       ch.start_time = none ∧ ch.end_time = none) ∧
    (∀ ck ∈ ChapterBasedChunker.chunkByChapters content segs
        (extractVideoChapters d vd).chapters vd,
       ck.start_timestamp = 0 ∧ ck.end_timestamp = intToRat vd ∧
       ck.chunk_text = String.intercalate " "
         ((defaultWindowFilter segs (intToRat vd)).map fun s => s.text.getD "")) ∧
    (defaultWindowFilter segs (intToRat vd) ≠ [] →
      (ChapterBasedChunker.chunkByChapters content segs
        (extractVideoChapters d vd).chapters vd).length =
        (extractVideoChapters d vd).chapters.length) := by
  refine ⟨extractVideoChapters_keys d vd, ?_, ?_⟩
  · intro ck hck
    exact chunkByChaptersGo_defaultWindow segs (intToRat vd) _ 0
      (extractVideoChapters_keys d vd) ck hck
  · intro hne
    exact chunkByChaptersGo_fullLength segs (intToRat vd) hne _ 0
      (extractVideoChapters_keys d vd)

/-- Witness for C4 (amended) at concrete inputs. -/
theorem chapter_key_mismatch_witness :
    ({ chunk_index := 0, chunk_text := "a", start_timestamp := 0, end_timestamp := 100,
       chunk_length := 1, chapter_title := some "Intro line" } : CBChunk).start_timestamp = 0 ∧
    (ChapterBasedChunker.chunkByChapters "" mismatchSegs
        (extractVideoChapters mismatchDescription 100).chapters 100).length =
      (extractVideoChapters mismatchDescription 100).chapters.length := by
  constructor
  · exact ((chapter_key_mismatch mismatchDescription 100 "" mismatchSegs).2.1 _
      (by decide)).1
  · exact (chapter_key_mismatch mismatchDescription 100 "" mismatchSegs).2.2 (by decide)

/-! ### C9 — the VTT subtitle parser -/

/-- Non-decreasing rational list, as a computable check. -/
def ratListSortedB : List ℚ → Bool
  | a :: b :: rest => decide (a ≤ b) && ratListSortedB (b :: rest)
  | _ => true

/-- A leftover bracketed annotation token: a `[` with a `]` after it. -/
def containsBracketTok (s : String) : Bool :=
  ((s.toList.dropWhile (· ≠ '[')).drop 1).contains ']'

theorem ratListSortedB_iff (l : List ℚ) :
    ratListSortedB l = true ↔ l.Chain' (· ≤ ·) := by
  induction l with
  | nil => simp [ratListSortedB]
  | cons a rest ih =>
    cases rest with
    | nil => simp [ratListSortedB]
    | cons b r2 =>
      rw [ratListSortedB, Bool.and_eq_true, decide_eq_true_eq, List.chain'_cons]
      rw [ih]

theorem filterMap_refine_sublist {α β γ : Type} (π : β → γ) (f : α → Option β)
    (g : α → Option γ) (h : ∀ a b, f a = some b → g a = some (π b)) :
    ∀ l : List α, List.Sublist ((l.filterMap f).map π) (l.filterMap g) := by
  intro l
  induction l with
  | nil => simp
  | cons a rest ih =>
    rcases hfa : f a with _ | b
    · rw [List.filterMap_cons_none hfa]
      rcases hga : g a with _ | c
      · rw [List.filterMap_cons_none hga]
        exact ih
      · rw [List.filterMap_cons_some hga]
        exact List.Sublist.cons c ih
    · rw [List.filterMap_cons_some hfa, List.filterMap_cons_some (h a b hfa), List.map_cons]
      exact List.Sublist.cons₂ (π b) ih

theorem vttBlockSeg_start (b : String) (t : String) (s du : ℚ)
    (h : vttBlockSeg b = some (t, s, du)) : vttBlockStart b = some s := by
  unfold vttBlockSeg at h
  unfold vttBlockStart
  rcases hh : vttBlockHeader b with _ | ⟨st, en, tls⟩
  · rw [hh] at h
    cases h
  · rw [hh] at h
    dsimp only at h ⊢
    split_ifs at h
    have h2 := congrArg (fun p : String × ℚ × ℚ => p.2.1) (Option.some.inj h)
    dsimp at h2
    rw [h2]
    rfl

theorem pySegs_filterMap_start (ts : List (String × ℚ × ℚ)) :
    ((ts.map fun t =>
        ({ text := some t.1, start := some t.2.1, duration := some t.2.2 } : PySeg)).filterMap
      (·.start)) = ts.map fun t => t.2.1 := by
  induction ts with
  | nil => rfl
  | cons t rest ih =>
    rw [List.map_cons, List.filterMap_cons_some (by rfl), ih, List.map_cons]

/-- C9 counterexample: a well-formed, time-ordered cue payload whose
first cue's text is the non-speech annotation `[Music]`: the parser only
strips angle-bracket markup, so the emitted segment text still contains
the bracketed annotation token. -/
theorem vtt_annotation_cex :
    ratListSortedB ((splitBlocksVtt
      "WEBVTT\n\n00:00:01.000 --> 00:00:02.000\n[Music]\n\n00:00:03.000 --> 00:00:04.000\nhello").filterMap
        vttBlockStart) = true ∧
    ((parseVttSubtitles
      "WEBVTT\n\n00:00:01.000 --> 00:00:02.000\n[Music]\n\n00:00:03.000 --> 00:00:04.000\nhello").2.map
        (·.text)) = [some "[Music]", some "hello"] ∧
    ((parseVttSubtitles
      "WEBVTT\n\n00:00:01.000 --> 00:00:02.000\n[Music]\n\n00:00:03.000 --> 00:00:04.000\nhello").2.map
        fun s => containsBracketTok (s.text.getD "")) = [true, false] := by
  refine ⟨by decide, rfl, rfl⟩

/-- C9 (amended): the parser emits segments in payload order, so whenever
the payload's parseable cue headers are time-ordered the emitted segment
starts are non-decreasing; segment text has angle-bracket markup tags
removed, but square-bracketed annotation tokens such as `[Music]` are
**not** stripped (shown at a representative payload). -/
theorem vtt_parser_props :
    (∀ vtt, ratListSortedB ((splitBlocksVtt vtt).filterMap vttBlockStart) = true →
       ratListSortedB ((parseVttSubtitles vtt).2.filterMap (·.start)) = true) ∧
    ((parseVttSubtitles
      "WEBVTT\n\n00:00:01.000 --> 00:00:02.000\n[Music]\n\n00:00:03.000 --> 00:00:04.000\nhello").2.map
        fun s => containsBracketTok (s.text.getD "")) = [true, false] := by
  constructor
  · intro vtt h
    have hmap : (parseVttSubtitles vtt).2.filterMap (·.start) =
        ((splitBlocksVtt vtt).filterMap vttBlockSeg).map fun t => t.2.1 := by
      unfold parseVttSubtitles
      exact pySegs_filterMap_start _
    rw [hmap]
    have hsub := filterMap_refine_sublist (fun t : String × ℚ × ℚ => t.2.1)
      vttBlockSeg vttBlockStart
      (fun b p hp => vttBlockSeg_start b p.1 p.2.1 p.2.2 hp) (splitBlocksVtt vtt)
    rw [ratListSortedB_iff] at h ⊢
    rw [List.chain'_iff_pairwise] at h ⊢
    exact h.sublist hsub
  · rfl

/-- Witness for C9 (amended) at a concrete payload. -/
theorem vtt_parser_props_witness :
    ratListSortedB ((parseVttSubtitles
      "WEBVTT\n\n00:00:01.000 --> 00:00:02.000\n[Music]\n\n00:00:03.000 --> 00:00:04.000\nhello").2.filterMap
        (·.start)) = true :=
  vtt_parser_props.1
    "WEBVTT\n\n00:00:01.000 --> 00:00:02.000\n[Music]\n\n00:00:03.000 --> 00:00:04.000\nhello"
    (by decide)

end SamBot
